import Mathlib

/-!
Verification of the ganeti daemon mainloop module (lib/daemon.py).

The embedding translates the module's data and control flow into Lean:

* Python exceptions become the `PyExc` type; fallible code returns an
  `Option PyExc` (raised exception) next to its other results.
* Observable actions (one asyncore reactor pass, one timer-callback
  dispatch, one `OnSignal` observer call) are recorded in a trace of `Ev`
  values, so that ordering claims can be stated about whole executions.
* The behaviour of externally supplied callables (timer callbacks, observer
  `OnSignal` methods, readiness handlers inside a reactor pass) is a
  parameter `Env`: each either returns normally or raises.
* `sched.scheduler` (Python 2 standard library) keeps its queue sorted by
  the `(time, priority)` key and its `run` loop pops the front event; after
  every dispatched event it calls `delayfunc(0)`, and when the front event
  is not yet due it calls `delayfunc(time - now)`.
* Machine state that the source mutates (the queue, the per-signal latches,
  the `running` flag) is passed explicitly through step functions, and the
  outer `while` loops are driven by explicit fuel.
-/

namespace Daemon

/-- Python exception values raised by the code under study.
`schedulerBreakout` is the module's `SchedulerBreakout` class; the others
model built-in exception classes; `userExc` stands for an arbitrary
exception raised by user-supplied callback code. -/
inductive PyExc where
  | schedulerBreakout : PyExc
  | attributeError : String → PyExc
  | nameError : String → PyExc
  | assertionError : String → PyExc
  | systemExit : Nat → PyExc
  | userExc : Nat → PyExc
deriving DecidableEq, Repr

/-- Observable events of one mainloop execution.
`reactorPass t` is one `asyncore.loop(count=1, ...)` pass (`t` = the
`timeout` argument, `none` when the call uses asyncore's default);
`dispatch time priority action` is one timer callback invocation;
`onSignal owner arg` is one `owner.OnSignal(arg)` call. -/
inductive Ev where
  | reactorPass : Option Int → Ev
  | dispatch : Int → Int → Nat → Ev
  | onSignal : Nat → Nat → Ev
deriving DecidableEq, Repr

/-- `signal.SIGTERM` on Linux. -/
def SIGTERM : Nat := 15

/-- `signal.SIGCHLD` on Linux. -/
def SIGCHLD : Nat := 17

/-- Behaviour of the external callables the module invokes: `act a` is what
timer callback `a` does when called (raises or returns), `obsAct o` is what
observer `o`'s `OnSignal` does, and `ioExc` is the exception, if any, that a
readiness handler raises during an `asyncore.loop` pass. -/
structure Env where
  act : Nat → Option PyExc
  obsAct : Nat → Option PyExc
  ioExc : Option PyExc

/-- The environment in which every callback returns normally. -/
def envPure : Env := { act := fun _ => none, obsAct := fun _ => none, ioExc := none }

/-- One `asyncore.loop(timeout, count=1, use_poll=True)` pass: it performs
one bounded poll and either returns or propagates an exception raised by a
readiness handler. -/
def asyncoreLoopPass (env : Env) (timeout : Option Int) : List Ev × Option PyExc :=
  ([Ev.reactorPass timeout], env.ioExc)

/-- `AsyncoreDelayFunction(timeout)` from lib/daemon.py: run one asyncore
pass bounded by `timeout`, then raise `SchedulerBreakout` unconditionally.
If the pass itself raises, that exception propagates and the breakout raise
is never reached. -/
def AsyncoreDelayFunction (env : Env) (timeout : Int) : List Ev × Option PyExc :=
  let p := asyncoreLoopPass env (some timeout)
  match p.2 with
  | some e => (p.1, some e)
  | none => (p.1, some PyExc.schedulerBreakout)

/-- One pending event of the `sched.scheduler` queue: the tuple
`(time, priority, action, argument)`; the action (with its argument) is
identified by a number interpreted through `Env.act`. -/
structure SchedEvent where
  time : Int
  priority : Int
  action : Nat
deriving DecidableEq, Repr

/-- Order on `(fire_time, priority)` keys: earlier time first, equal times
broken by ascending priority value. -/
def keyLE (a b : Int × Int) : Prop :=
  a.1 < b.1 ∨ (a.1 = b.1 ∧ a.2 ≤ b.2)

instance : DecidableRel keyLE := fun a b => by
  unfold keyLE; infer_instance

/-- The sort key of a scheduler event. -/
def evKey (e : SchedEvent) : Int × Int := (e.time, e.priority)

/-- The scheduler queue order: compare events by `(time, priority)`. -/
def evKeyLE (a b : SchedEvent) : Prop := keyLE (evKey a) (evKey b)

instance : DecidableRel evKeyLE := fun a b => by
  unfold evKeyLE; infer_instance

theorem keyLE_trans : ∀ a b c, keyLE a b → keyLE b c → keyLE a c := by
  rintro ⟨a1, a2⟩ ⟨b1, b2⟩ ⟨c1, c2⟩ (h1 | ⟨h1, h2⟩) (h3 | ⟨h3, h4⟩)
  · exact Or.inl (h1.trans h3)
  · exact Or.inl (h3 ▸ h1)
  · exact Or.inl (h1 ▸ h3)
  · exact Or.inr ⟨h1.trans h3, h2.trans h4⟩

theorem keyLE_total : ∀ a b, keyLE a b ∨ keyLE b a := by
  rintro ⟨a1, a2⟩ ⟨b1, b2⟩
  rcases lt_trichotomy a1 b1 with h | h | h
  · exact Or.inl (Or.inl h)
  · rcases le_total a2 b2 with h2 | h2
    · exact Or.inl (Or.inr ⟨h, h2⟩)
    · exact Or.inr (Or.inr ⟨h.symm, h2⟩)
  · exact Or.inr (Or.inl h)

instance : IsTrans SchedEvent evKeyLE := ⟨fun a b c => keyLE_trans _ _ _⟩

instance : IsTotal SchedEvent evKeyLE := ⟨fun a b => keyLE_total _ _⟩

/-- `sched.scheduler.enterabs(time, priority, action, argument)`: the queue
is a priority structure ordered by the `(time, priority)` key (Python keeps
the event list sorted / heap-ordered by the event tuple); inserting keeps
that order. -/
def enterabs (t p : Int) (a : Nat) (q : List SchedEvent) : List SchedEvent :=
  List.orderedInsert evKeyLE ⟨t, p, a⟩ q

/-- `sched.scheduler.enter(delay, priority, action, argument)`: schedule at
`timefunc() + delay` where `now` is the clock value at the call. -/
def enter (now delay p : Int) (a : Nat) (q : List SchedEvent) : List SchedEvent :=
  enterabs (now + delay) p a q

/-- The `sched.scheduler.run` loop, generic in the configured delay
function, with explicit fuel for the `while q:` loop.  Per iteration: if the
front event is not yet due, call `delayfunc(time - now)`; otherwise pop it,
call its action, and call `delayfunc(0)`.  An exception raised by the delay
function or the action propagates out of `run`.  (`timefunc` is re-read each
iteration in the source; with `AsyncoreDelayFunction` as the delay function
at most one iteration ever executes, because that delay function always
raises, so a single sample `now` is faithful.) -/
def schedulerRunLoop (delayfunc : Int → List Ev × Option PyExc) (env : Env) (now : Int) :
    Nat → List SchedEvent → List Ev × List SchedEvent × Option PyExc
  | 0, q => ([], q, none)
  | _ + 1, [] => ([], [], none)
  | fuel + 1, e :: q =>
    if now < e.time then
      let d := delayfunc (e.time - now)
      match d.2 with
      | some err => (d.1, e :: q, some err)
      | none =>
        let r := schedulerRunLoop delayfunc env now fuel (e :: q)
        (d.1 ++ r.1, r.2.1, r.2.2)
    else
      let ev := Ev.dispatch e.time e.priority e.action
      match env.act e.action with
      | some err => ([ev], q, some err)
      | none =>
        let d := delayfunc 0
        match d.2 with
        | some err => (ev :: d.1, q, some err)
        | none =>
          let r := schedulerRunLoop delayfunc env now fuel q
          (ev :: (d.1 ++ r.1), r.2.1, r.2.2)

/-- One invocation of `scheduler.run()` on an `AsyncoreScheduler`, whose
delay function is `AsyncoreDelayFunction` (set in `AsyncoreScheduler.__init__`).
The fuel `q.length + 1` is enough for any possible number of loop
iterations. -/
def asyncoreSchedulerRun (env : Env) (now : Int) (q : List SchedEvent) :
    List Ev × List SchedEvent × Option PyExc :=
  schedulerRunLoop (AsyncoreDelayFunction env) env now (q.length + 1) q

/-- The attributes `Mainloop.__init__` assigns, as explicit state:
`_signal_wait` (the observer registration list, observers identified by
number), the scheduler's queue, and `_io_wait`, which `__init__` never
assigns — reading a never-assigned instance attribute in Python raises
`AttributeError`, so its model is an `Option` that starts out `none`. -/
structure Mainloop where
  signal_wait : List Nat
  queue : List SchedEvent
  io_wait : Option (List Nat)
deriving DecidableEq, Repr

/-- `Mainloop.__init__`: sets `self._signal_wait = []` and creates the
scheduler (empty queue); no other instance attribute is assigned. -/
def Mainloop.init : Mainloop :=
  { signal_wait := [], queue := [], io_wait := none }

/-- `Mainloop.RegisterSignal(owner)`: append the receiver to
`self._signal_wait`. -/
def RegisterSignal (owner : Nat) (m : Mainloop) : Mainloop :=
  { m with signal_wait := m.signal_wait ++ [owner] }

/-- `Mainloop._CallSignalWaiters(signum)`: for each registered owner, in
registration order, call `owner.OnSignal(signal.SIGCHLD)` — the source
passes the literal `signal.SIGCHLD`, not its `signum` parameter.  An
exception raised by an `OnSignal` call stops the iteration and
propagates. -/
def callSignalWaiters (env : Env) (signal_wait : List Nat) (signum : Nat) :
    List Ev × Option PyExc :=
  match signal_wait with
  | [] => ([], none)
  | o :: rest =>
    let ev := Ev.onSignal o SIGCHLD
    match env.obsAct o with
    | some err => ([ev], some err)
    | none =>
      let r := callSignalWaiters env rest signum
      (ev :: r.1, r.2)

/-- Result of the per-signal checkpoint loop at the bottom of
`Mainloop.Run`: the observer-call trace, the handler latches after the
loop, the `running` flag after the loop, and a propagating exception if an
observer raised (in which case the remaining latches are left as they
were). -/
structure CkptRes where
  trace : List Ev
  handlers : List (Nat × Bool)
  running : Bool
  exc : Option PyExc
deriving DecidableEq, Repr

/-- The `for sig in signal_handlers:` checkpoint of `Mainloop.Run`, over the
handler map in its iteration order: for each signal whose latch (`called`)
is set, call the signal waiters, assign `running = (sig != signal.SIGTERM)`,
and clear the latch. -/
def signalCheckpoint (env : Env) (signal_wait : List Nat) (running : Bool) :
    List (Nat × Bool) → CkptRes
  | [] => ⟨[], [], running, none⟩
  | (sig, called) :: rest =>
    if called then
      let c := callSignalWaiters env signal_wait sig
      match c.2 with
      | some err => ⟨c.1, (sig, called) :: rest, running, some err⟩
      | none =>
        let r := signalCheckpoint env signal_wait (decide (sig ≠ SIGTERM)) rest
        ⟨c.1 ++ r.trace, (sig, false) :: r.handlers, r.running, r.exc⟩
    else
      let r := signalCheckpoint env signal_wait running rest
      ⟨r.trace, (sig, called) :: r.handlers, r.running, r.exc⟩

/-- The signal number of the last handler in iteration order whose latch is
set, if any.  The checkpoint leaves `running = (that signal != SIGTERM)`. -/
def lastCalled : List (Nat × Bool) → Option Nat
  | [] => none
  | (sig, called) :: rest =>
    match lastCalled rest with
    | some s => some s
    | none => if called then some sig else none

/-- Loop-carried state of one `Mainloop.Run` activation: the scheduler
queue, the latches of the watched signal handlers (in the iteration order
of the `signal_handlers` dict), and the `running` flag. -/
structure LoopSt where
  queue : List SchedEvent
  handlers : List (Nat × Bool)
  running : Bool
deriving DecidableEq, Repr

/-- How one iteration of the `while running:` loop ends: fall through to
the next iteration, leave via `break`, or leave via a raised exception. -/
inductive IterOut where
  | next : LoopSt → IterOut
  | brk : IterOut
  | raised : PyExc → IterOut
deriving DecidableEq, Repr

/-- The timer/I-O phase of one loop iteration: if the scheduler queue is
non-empty, call `scheduler.run()` catching exactly `SchedulerBreakout`
(`try ... except SchedulerBreakout: pass`); otherwise run one plain
`asyncore.loop(count=1, use_poll=True)` pass with no surrounding `try`. -/
def schedPhase (env : Env) (now : Int) (st : LoopSt) :
    List Ev × List SchedEvent × Option PyExc :=
  if st.queue.isEmpty then
    let p := asyncoreLoopPass env none
    (p.1, st.queue, p.2)
  else
    let r := asyncoreSchedulerRun env now st.queue
    (r.1, r.2.1, if r.2.2 = some PyExc.schedulerBreakout then none else r.2.2)

/-- The body of one `while running:` iteration after the stop-on-empty
check: the timer/I-O phase, then the signal checkpoint. -/
def runIterRest (env : Env) (signal_wait : List Nat) (now : Int) (st : LoopSt) :
    List Ev × IterOut :=
  let s := schedPhase env now st
  match s.2.2 with
  | some err => (s.1, IterOut.raised err)
  | none =>
    let c := signalCheckpoint env signal_wait st.running st.handlers
    match c.exc with
    | some err => (s.1 ++ c.trace, IterOut.raised err)
    | none => (s.1 ++ c.trace, IterOut.next ⟨s.2.1, c.handlers, c.running⟩)

/-- One full iteration of the `while running:` loop, starting with
`if stop_on_empty and not (self._io_wait): break`.  Python's `and`
short-circuits, so `self._io_wait` is only read when `stop_on_empty` is
true; reading it raises `AttributeError` when the attribute was never
assigned. -/
def runIter (env : Env) (stop_on_empty : Bool) (signal_wait : List Nat)
    (io_wait : Option (List Nat)) (now : Int) (st : LoopSt) : List Ev × IterOut :=
  if stop_on_empty then
    match io_wait with
    | none => ([], IterOut.raised (PyExc.attributeError "_io_wait"))
    | some l =>
      if l.isEmpty then ([], IterOut.brk)
      else runIterRest env signal_wait now st
  else runIterRest env signal_wait now st

/-- How a `Run` activation ends: normal return (loop condition false or
`break`), a propagating exception, or fuel exhausted while `running` is
still true (the loop would keep iterating). -/
inductive RunOut where
  | normal : LoopSt → RunOut
  | raised : PyExc → RunOut
  | outOfFuel : LoopSt → RunOut
deriving DecidableEq, Repr

/-- Latch the signals delivered since the last iteration: the OS trampoline
sets `called` on the corresponding handler; other latches are unchanged. -/
def setLatches (ds : List Nat) (hs : List (Nat × Bool)) : List (Nat × Bool) :=
  hs.map (fun h => (h.1, h.2 || decide (h.1 ∈ ds)))

/-- The `while running:` loop of `Mainloop.Run`.  Each fuel entry is one
iteration's environment sample: the clock value `now` and the list of
signals delivered (asynchronously) since the latches were last read. -/
def runLoop (env : Env) (stop_on_empty : Bool) (signal_wait : List Nat)
    (io_wait : Option (List Nat)) :
    List (Int × List Nat) → LoopSt → List Ev × RunOut
  | [], st => if st.running then ([], RunOut.outOfFuel st) else ([], RunOut.normal st)
  | (now, ds) :: rest, st =>
    if st.running then
      let st1 : LoopSt := ⟨st.queue, setLatches ds st.handlers, st.running⟩
      let r := runIter env stop_on_empty signal_wait io_wait now st1
      match r.2 with
      | IterOut.brk => (r.1, RunOut.normal st1)
      | IterOut.raised e => (r.1, RunOut.raised e)
      | IterOut.next st2 =>
        let r2 := runLoop env stop_on_empty signal_wait io_wait rest st2
        (r.1 ++ r2.1, r2.2)
    else ([], RunOut.normal st)

/-- The body of `Mainloop.Run` as written (lines 90–124): assert that
`signal_handlers` is a non-empty dict ("Broken SignalHandled decorator"),
set `running = True`, and enter the while loop.  `none` models the Python
default `signal_handlers=None` (the decorator bypassed); `isinstance(None,
dict)` is false, so the assertion fails before any iteration. -/
def RunBody (env : Env) (stop_on_empty : Bool) (m : Mainloop)
    (signal_handlers : Option (List (Nat × Bool))) (fuel : List (Int × List Nat)) :
    List Ev × RunOut :=
  match signal_handlers with
  | none => ([], RunOut.raised (PyExc.assertionError "Broken SignalHandled decorator"))
  | some hs =>
    if hs.isEmpty then
      ([], RunOut.raised (PyExc.assertionError "Broken SignalHandled decorator"))
    else runLoop env stop_on_empty m.signal_wait m.io_wait fuel ⟨m.queue, hs, true⟩

/-- Modelled from the spec: `utils.SignalHandled(signums)` (the decorator
applied to `Mainloop.Run`) is not under src/.  Per the spec's SignalLatch
description and Run's docstring ("signal->L\x7butils.SignalHandler\x7d passed by
decorator"), each decorator installs a fresh, unset latch for each listed
signal for the duration of the call and passes the accumulated
signal-to-latch mapping to the wrapped function as `signal_handlers`. -/
def SignalHandled (signums : List Nat) (fn : Option (List (Nat × Bool)) → List Ev × RunOut)
    (signal_handlers : Option (List (Nat × Bool))) : List Ev × RunOut :=
  fn (some ((signal_handlers.getD []) ++ signums.map (fun s => (s, false))))

/-- `Mainloop.Run` as exposed: the body wrapped by
`@utils.SignalHandled([signal.SIGCHLD])` (outermost) and
`@utils.SignalHandled([signal.SIGTERM])`, called with the caller's
`signal_handlers` argument (default `None`). -/
def MainloopRun (env : Env) (stop_on_empty : Bool) (m : Mainloop)
    (fuel : List (Int × List Nat)) (signal_handlers : Option (List (Nat × Bool))) :
    List Ev × RunOut :=
  SignalHandled [SIGCHLD]
    (SignalHandled [SIGTERM] (fun sh => RunBody env stop_on_empty m sh fuel))
    signal_handlers

/-- Modelled from the spec: the OS-level signal trampoline of
`utils.SignalHandler` (not under src/) does nothing but set the latch
(`called = True`); a delivery when the latch is already set leaves it
set. -/
def signalTrampoline (_ : Bool) : Bool := true

/-- The latch after `n` deliveries of the watched signal. -/
def deliverTimes : Nat → Bool → Bool
  | 0, b => b
  | n + 1, b => signalTrampoline (deliverTimes n b)

/-- The `(fire_time, priority)` keys of the timer dispatches in a trace, in
trace order. -/
def dispatchKeys (t : List Ev) : List (Int × Int) :=
  t.filterMap fun e =>
    match e with
    | Ev.dispatch ti p _ => some (ti, p)
    | _ => none

/-- A queue built by a sequence of `Enter` calls, each carrying the clock
value at the call, the delay, the priority, and the action. -/
def buildQueue (calls : List (Int × Int × Int × Nat)) : List SchedEvent :=
  calls.foldl (fun q c => enter c.1 c.2.1 c.2.2.1 c.2.2.2 q) []

/-- The module-level imports of lib/daemon.py, in source order, plus the
three `from ganeti import ...` names.  Name resolution of a bare global in
the module body succeeds exactly for these names (and the module's own
definitions); `sys` is not among them. -/
def moduleImports : List String :=
  ["asyncore", "os", "select", "signal", "errno", "logging", "sched", "time",
   "utils", "constants", "errors"]

/-- Modelled from the spec: `constants.EXIT_FAILURE` (the ganeti constants
module is not under src/), the distinct failure exit status used by the
bootstrap glue. -/
def EXIT_FAILURE : Nat := 1

/-- Observable steps of the `GenericMain` bootstrap sequence after option
parsing. -/
inductive BootEv where
  | printed : String → BootEv
  | checkFn : BootEv
  | ensureDirs : BootEv
  | closeFDs : BootEv
  | daemonize : BootEv
  | writePid : BootEv
  | execFn : BootEv
  | removePid : BootEv
deriving DecidableEq, Repr

/-- `print >> sys.stderr, msg`: evaluating the statement first resolves the
global name `sys`; if the module never imported it, `NameError` is raised
and nothing is printed. -/
def printToStderr (msg : String) : List BootEv × Option PyExc :=
  if "sys" ∈ moduleImports then ([BootEv.printed msg], none)
  else ([], some (PyExc.nameError "sys"))

/-- `sys.exit(code)`: resolves `sys`, then raises `SystemExit(code)`. -/
def sysExit (code : Nat) : Option PyExc :=
  if "sys" ∈ moduleImports then some (PyExc.systemExit code)
  else some (PyExc.nameError "sys")

/-- The options `GenericMain` reads in its SSL precondition block and for
daemonization: `ssl` is `none` when the parser did not add the SSL options
(`hasattr(options, 'ssl')` false).  Python string truthiness: the empty
string is falsy. -/
structure BootOptions where
  ssl : Option Bool
  ssl_cert : String
  ssl_key : String
  fork : Bool
deriving DecidableEq, Repr

/-- `for fname in (options.ssl_cert, options.ssl_key): if not
os.path.isfile(fname): print ...; sys.exit(EXIT_FAILURE)`. -/
def sslFileLoop (isfile : String → Bool) : List String → List BootEv × Option PyExc
  | [] => ([], none)
  | f :: rest =>
    if isfile f then sslFileLoop isfile rest
    else
      let p := printToStderr ("Need ssl file " ++ f ++ " to run")
      match p.2 with
      | some e => (p.1, some e)
      | none => (p.1, sysExit EXIT_FAILURE)

/-- The steps `GenericMain` performs after the SSL precondition block, in
order: `check_fn`, `utils.EnsureDirs`, then (only when `options.fork`)
`utils.CloseFDs` and `utils.Daemonize`, then the PID file is written,
`exec_fn` runs, and the PID file is removed. -/
def postSSL (fork : Bool) : List BootEv :=
  [BootEv.checkFn, BootEv.ensureDirs]
    ++ (if fork then [BootEv.closeFDs, BootEv.daemonize] else [])
    ++ [BootEv.writePid, BootEv.execFn, BootEv.removePid]

/-- The `GenericMain` bootstrap sequence after option parsing: the SSL
precondition block (`if hasattr(options, 'ssl') and options.ssl:` — first
the cert-and-key truthiness check, then the file-existence loop), followed
by the remaining steps. -/
def GenericMainBoot (isfile : String → Bool) (opts : BootOptions) :
    List BootEv × Option PyExc :=
  let ssl :=
    match opts.ssl with
    | some true =>
      if opts.ssl_cert = "" ∨ opts.ssl_key = "" then
        let p := printToStderr "Need key and certificate to use ssl"
        match p.2 with
        | some e => (p.1, some e)
        | none => (p.1, sysExit EXIT_FAILURE)
      else sslFileLoop isfile [opts.ssl_cert, opts.ssl_key]
    | _ => ([], none)
  match ssl.2 with
  | some e => (ssl.1, some e)
  | none => (ssl.1 ++ postSSL opts.fork, none)

theorem callSignalWaiters_pure (env : Env) (sw : List Nat) (s : Nat)
    (h : ∀ o, env.obsAct o = none) :
    callSignalWaiters env sw s = (sw.map (fun o => Ev.onSignal o SIGCHLD), none) := by
  induction sw with
  | nil => rfl
  | cons o rest ih => simp [callSignalWaiters, h o, ih]

theorem signalCheckpoint_exc (env : Env) (sw : List Nat)
    (h : ∀ o, env.obsAct o = none) :
    ∀ (hs : List (Nat × Bool)) (r : Bool), (signalCheckpoint env sw r hs).exc = none := by
  intro hs
  induction hs with
  | nil => intro r; rfl
  | cons p rest ih =>
    intro r
    rcases p with ⟨sig, called⟩
    cases called
    · simp [signalCheckpoint, ih r]
    · simp [signalCheckpoint, callSignalWaiters_pure env sw sig h, ih]

theorem signalCheckpoint_running (env : Env) (sw : List Nat)
    (h : ∀ o, env.obsAct o = none) :
    ∀ (hs : List (Nat × Bool)) (r : Bool),
      (signalCheckpoint env sw r hs).running
        = (match lastCalled hs with
           | none => r
           | some s => decide (s ≠ SIGTERM)) := by
  intro hs
  induction hs with
  | nil => intro r; rfl
  | cons p rest ih =>
    intro r
    rcases p with ⟨sig, called⟩
    cases called
    · cases hlc : lastCalled rest <;>
        simp [signalCheckpoint, lastCalled, ih r, hlc]
    · cases hlc : lastCalled rest <;>
        simp [signalCheckpoint, lastCalled, callSignalWaiters_pure env sw sig h, ih, hlc]

theorem runLoop_halted (env : Env) (sos : Bool) (sw : List Nat)
    (iow : Option (List Nat)) (fuel : List (Int × List Nat)) (st : LoopSt)
    (h : st.running = false) :
    runLoop env sos sw iow fuel st = ([], RunOut.normal st) := by
  cases fuel with
  | nil => simp [runLoop, h]
  | cons a rest => rcases a with ⟨now, ds⟩; simp [runLoop, h]

/-- Claim C1: the code is expected to invoke every registered observer's
`OnSignal` with the handled signal's own number; the source instead passes
the literal `signal.SIGCHLD`.  Evaluated at the failing input (one
registered observer, SIGTERM latched): the observer is told SIGCHLD, a
different signal than the one handled. -/
theorem C1_wrong_signum :
    callSignalWaiters envPure [7] SIGTERM = ([Ev.onSignal 7 SIGCHLD], none)
    ∧ runLoop envPure false [7] none [(0, [SIGTERM])] ⟨[], [(SIGTERM, false)], true⟩
        = ([Ev.reactorPass none, Ev.onSignal 7 SIGCHLD],
           RunOut.normal ⟨[], [(SIGTERM, false)], false⟩)
    ∧ SIGCHLD ≠ SIGTERM := by
  decide

/-- Claim C2, counterexample: with the handler iteration order putting
SIGTERM before SIGCHLD and both latches set, the running flag is set to
false on observing SIGTERM's latch and then reset to true on observing
SIGCHLD's latch in the same checkpoint, and `Run` keeps iterating past the
iteration that observed the termination latch. -/
theorem C2_counterexample :
    (signalCheckpoint envPure [] true [(SIGTERM, true)]).running = false
    ∧ (signalCheckpoint envPure [] true [(SIGTERM, true), (SIGCHLD, true)]).running = true
    ∧ runLoop envPure false [] none [(0, []), (0, [])]
        ⟨[], [(SIGTERM, true), (SIGCHLD, true)], true⟩
      = ([Ev.reactorPass none, Ev.reactorPass none],
         RunOut.outOfFuel ⟨[], [(SIGTERM, false), (SIGCHLD, false)], true⟩) := by
  decide

/-- Claim C2 (amended): the running flag is reassigned at every set latch
the checkpoint observes, so after a checkpoint it is false exactly when the
last watched signal with a set latch, in handler iteration order, is
SIGTERM (and unchanged when no latch was set); once the flag is false, Run
returns without performing another iteration. -/
theorem C2_amended_flag (env : Env) (sw : List Nat) (r : Bool)
    (hs : List (Nat × Bool)) (sos : Bool) (sw2 : List Nat)
    (iow : Option (List Nat)) (fuel : List (Int × List Nat)) (st : LoopSt)
    (hobs : ∀ o, env.obsAct o = none) (hst : st.running = false) :
    (signalCheckpoint env sw r hs).running
      = (match lastCalled hs with
         | none => r
         | some s => decide (s ≠ SIGTERM))
    ∧ runLoop env sos sw2 iow fuel st = ([], RunOut.normal st) :=
  ⟨signalCheckpoint_running env sw hobs hs r,
   runLoop_halted env sos sw2 iow fuel st hst⟩

theorem C2_amended_flag_witness :
    (signalCheckpoint envPure [] true [(SIGTERM, true)]).running
      = (match lastCalled [(SIGTERM, true)] with
         | none => true
         | some s => decide (s ≠ SIGTERM))
    ∧ runLoop envPure false [] none [] ⟨[], [], false⟩
        = ([], RunOut.normal ⟨[], [], false⟩) :=
  C2_amended_flag envPure [] true [(SIGTERM, true)] false [] none [] ⟨[], [], false⟩
    (fun _ => rfl) rfl

/-- Claim C3: `Run(stop_on_empty=True)` on a freshly constructed Mainloop
is expected to return normally; instead the very first iteration reads
`self._io_wait`, an attribute `__init__` never assigns, and raises
`AttributeError`. -/
theorem C3_io_wait_attribute_error :
    MainloopRun envPure true Mainloop.init [(0, [])] none
      = ([], RunOut.raised (PyExc.attributeError "_io_wait")) := by
  decide

/-- Claim C5, counterexample: at time 10 both queued events (fire times 5
and 6) are due, yet a single `scheduler.run()` invocation dispatches only
the first, performs its zero-timeout reactor pass, and aborts with the
breakout, leaving the second due event in the queue. -/
theorem C5_counterexample :
    asyncoreSchedulerRun envPure 10 [⟨5, 0, 1⟩, ⟨6, 0, 2⟩]
      = ([Ev.dispatch 5 0 1, Ev.reactorPass (some 0)], [⟨6, 0, 2⟩],
         some PyExc.schedulerBreakout)
    ∧ (6 : Int) ≤ 10 := by
  decide

/-- Claim C7: any `n ≥ 2` deliveries of a watched signal between two
consecutive latch inspections leave the latch simply set, so the next
checkpoint produces exactly one `OnSignal` call per registered observer, in
registration order, and then clears the latch. -/
theorem C7_signal_collapse (n sig : Nat) (sw : List Nat) (r : Bool) (hn : 2 ≤ n) :
    deliverTimes n false = true
    ∧ signalCheckpoint envPure sw r [(sig, deliverTimes n false)]
        = ⟨sw.map (fun o => Ev.onSignal o SIGCHLD), [(sig, false)],
           decide (sig ≠ SIGTERM), none⟩ := by
  have hd : deliverTimes n false = true := by
    cases n with
    | zero => omega
    | succ m => rfl
  refine ⟨hd, ?_⟩
  rw [hd]
  simp [signalCheckpoint, callSignalWaiters_pure envPure sw sig (fun _ => rfl)]

theorem C7_signal_collapse_witness :
    deliverTimes 2 false = true
    ∧ signalCheckpoint envPure [1, 2] true [(10, deliverTimes 2 false)]
        = ⟨[1, 2].map (fun o => Ev.onSignal o SIGCHLD), [(10, false)],
           decide (10 ≠ SIGTERM), none⟩ :=
  C7_signal_collapse 2 10 [1, 2] true (by decide)

/-- Claim C9: with SSL enabled and the certificate option empty (or naming
a non-existent file), `GenericMain` is expected to print an explanatory
message and exit with the failure status before daemonizing; the module
never imports `sys`, so evaluating `print >> sys.stderr` raises
`NameError('sys')` instead — nothing is printed and `sys.exit` is never
reached (daemonization still does not occur). -/
theorem C9_missing_sys_import :
    GenericMainBoot (fun _ => false) ⟨some true, "", "", true⟩
      = ([], some (PyExc.nameError "sys"))
    ∧ GenericMainBoot (fun _ => false) ⟨some true, "cert.pem", "key.pem", true⟩
        = ([], some (PyExc.nameError "sys"))
    ∧ GenericMainBoot (fun _ => false) ⟨some true, "", "", true⟩
        ≠ ([BootEv.printed "Need key and certificate to use ssl"],
           some (PyExc.systemExit EXIT_FAILURE)) := by
  decide

/-- Claim C10: through its decorators, `Run` always watches exactly SIGCHLD
and SIGTERM (whatever `stop_on_empty` and the state are, with the
caller leaving `signal_handlers` at its default `None`); and entering the
body with `signal_handlers = None` or an empty dict fails the "Broken
SignalHandled decorator" assertion before any loop iteration. -/
theorem C10_watched_signals (env : Env) (sos : Bool) (m : Mainloop)
    (fuel : List (Int × List Nat)) :
    MainloopRun env sos m fuel none
        = RunBody env sos m (some [(SIGCHLD, false), (SIGTERM, false)]) fuel
    ∧ RunBody env sos m none fuel
        = ([], RunOut.raised (PyExc.assertionError "Broken SignalHandled decorator"))
    ∧ RunBody env sos m (some []) fuel
        = ([], RunOut.raised (PyExc.assertionError "Broken SignalHandled decorator")) :=
  ⟨rfl, rfl, rfl⟩

theorem AsyncoreDelayFunction_clean (env : Env) (t : Int) (hio : env.ioExc = none) :
    AsyncoreDelayFunction env t
      = ([Ev.reactorPass (some t)], some PyExc.schedulerBreakout) := by
  unfold AsyncoreDelayFunction asyncoreLoopPass
  rw [hio]

/-- With a clean reactor, one `scheduler.run()` call on a non-empty queue
does exactly one of: a single reactor pass bounded by the head's remaining
delay (head not due), or one dispatch of the head followed by a
zero-timeout reactor pass (head due, callback returns), or one dispatch
whose callback raises; in the first two cases the call ends with the
breakout. -/
theorem asyncoreSchedulerRun_cons (env : Env) (now : Int) (e : SchedEvent)
    (q : List SchedEvent) (hio : env.ioExc = none) :
    asyncoreSchedulerRun env now (e :: q)
      = if now < e.time then
          ([Ev.reactorPass (some (e.time - now))], e :: q, some PyExc.schedulerBreakout)
        else
          match env.act e.action with
          | some err => ([Ev.dispatch e.time e.priority e.action], q, some err)
          | none => ([Ev.dispatch e.time e.priority e.action, Ev.reactorPass (some 0)],
                     q, some PyExc.schedulerBreakout) := by
  unfold asyncoreSchedulerRun
  simp only [List.length_cons, schedulerRunLoop,
    AsyncoreDelayFunction_clean env _ hio, AsyncoreDelayFunction_clean env 0 hio]

/-- Claim C5 (amended): a single `scheduler.run()` call dispatches at most
one due event — the queue head, minimal by `(fire_time, priority)` — then
performs one reactor pass (zero timeout after a dispatch, the remaining
delay when the head is not yet due) and aborts via the breakout; draining
the whole due set takes repeated calls by the outer loop. -/
theorem C5_amended_single_dispatch (env : Env) (now : Int) (e : SchedEvent)
    (q : List SchedEvent) (hio : env.ioExc = none) :
    asyncoreSchedulerRun env now (e :: q)
      = if now < e.time then
          ([Ev.reactorPass (some (e.time - now))], e :: q, some PyExc.schedulerBreakout)
        else
          match env.act e.action with
          | some err => ([Ev.dispatch e.time e.priority e.action], q, some err)
          | none => ([Ev.dispatch e.time e.priority e.action, Ev.reactorPass (some 0)],
                     q, some PyExc.schedulerBreakout) :=
  asyncoreSchedulerRun_cons env now e q hio

theorem C5_amended_single_dispatch_witness :
    asyncoreSchedulerRun envPure 10 [⟨5, 0, 1⟩, ⟨6, 0, 2⟩]
      = if (10 : Int) < (5 : Int) then
          ([Ev.reactorPass (some ((5 : Int) - 10))], [⟨5, 0, 1⟩, ⟨6, 0, 2⟩],
           some PyExc.schedulerBreakout)
        else
          match envPure.act 1 with
          | some err => ([Ev.dispatch 5 0 1], [⟨6, 0, 2⟩], some err)
          | none => ([Ev.dispatch 5 0 1, Ev.reactorPass (some 0)], [⟨6, 0, 2⟩],
                     some PyExc.schedulerBreakout) :=
  C5_amended_single_dispatch envPure 10 ⟨5, 0, 1⟩ [⟨6, 0, 2⟩] rfl

/-- Claim C4: the Interleaver wait step performs exactly one reactor pass
with the requested timeout (zero included) and then unconditionally raises
the breakout; `scheduler.run()` itself never catches it (a run over a
non-empty queue always ends in the raised breakout); `Mainloop.Run`'s
scheduler branch catches and discards exactly `SchedulerBreakout` — the
iteration continues into the signal checkpoint — while any other exception
from the same call site is re-raised, not discarded. -/
theorem C4_breakout_protocol (env : Env) (t now : Int) (e : SchedEvent)
    (q : List SchedEvent) (sw : List Nat) (iow : Option (List Nat))
    (hs : List (Nat × Bool)) (r : Bool) (err : PyExc)
    (hio : env.ioExc = none) (hact : ∀ a, env.act a = none)
    (hobs : ∀ o, env.obsAct o = none) (hne : err ≠ PyExc.schedulerBreakout)
    (hdue : e.time ≤ now) :
    AsyncoreDelayFunction env t
        = ([Ev.reactorPass (some t)], some PyExc.schedulerBreakout)
    ∧ AsyncoreDelayFunction env 0
        = ([Ev.reactorPass (some 0)], some PyExc.schedulerBreakout)
    ∧ (asyncoreSchedulerRun env now (e :: q)).2.2 = some PyExc.schedulerBreakout
    ∧ runIter env false sw iow now ⟨e :: q, hs, r⟩
        = ([Ev.dispatch e.time e.priority e.action, Ev.reactorPass (some 0)]
             ++ (signalCheckpoint env sw r hs).trace,
           IterOut.next ⟨q, (signalCheckpoint env sw r hs).handlers,
                         (signalCheckpoint env sw r hs).running⟩)
    ∧ runIter { env with act := fun _ => some err } false sw iow now ⟨e :: q, hs, r⟩
        = ([Ev.dispatch e.time e.priority e.action], IterOut.raised err) := by
  have hnotlt : ¬ now < e.time := not_lt.mpr hdue
  refine ⟨AsyncoreDelayFunction_clean env t hio, AsyncoreDelayFunction_clean env 0 hio,
    ?_, ?_, ?_⟩
  · rw [asyncoreSchedulerRun_cons env now e q hio]
    simp [hnotlt, hact]
  · unfold runIter runIterRest schedPhase
    rw [asyncoreSchedulerRun_cons env now e q hio]
    simp [hnotlt, hact, signalCheckpoint_exc env sw hobs]
  · unfold runIter runIterRest schedPhase
    rw [asyncoreSchedulerRun_cons { env with act := fun _ => some err } now e q hio]
    simp [hnotlt, hne]

theorem C4_breakout_protocol_witness :
    AsyncoreDelayFunction envPure 3
        = ([Ev.reactorPass (some 3)], some PyExc.schedulerBreakout)
    ∧ AsyncoreDelayFunction envPure 0
        = ([Ev.reactorPass (some 0)], some PyExc.schedulerBreakout)
    ∧ (asyncoreSchedulerRun envPure 4 [⟨2, 0, 1⟩]).2.2 = some PyExc.schedulerBreakout
    ∧ runIter envPure false [] none 4 ⟨[⟨2, 0, 1⟩], [(SIGCHLD, false)], true⟩
        = ([Ev.dispatch 2 0 1, Ev.reactorPass (some 0)]
             ++ (signalCheckpoint envPure [] true [(SIGCHLD, false)]).trace,
           IterOut.next ⟨[], (signalCheckpoint envPure [] true [(SIGCHLD, false)]).handlers,
                         (signalCheckpoint envPure [] true [(SIGCHLD, false)]).running⟩)
    ∧ runIter { envPure with act := fun _ => some (PyExc.userExc 0) } false [] none 4
          ⟨[⟨2, 0, 1⟩], [(SIGCHLD, false)], true⟩
        = ([Ev.dispatch 2 0 1], IterOut.raised (PyExc.userExc 0)) :=
  C4_breakout_protocol envPure 3 4 ⟨2, 0, 1⟩ [] [] none [(SIGCHLD, false)] true
    (PyExc.userExc 0) rfl (fun _ => rfl) (fun _ => rfl) (by decide) (by decide)

/-- Claim C8: an exception other than `SchedulerBreakout` raised by a timer
callback, by a readiness handler inside the reactor pass, or by a signal
observer is caught nowhere in `Mainloop.Run` and propagates to Run's
caller. -/
theorem C8_exception_propagation (err : PyExc) (sw : List Nat) (o : Nat)
    (hne : err ≠ PyExc.schedulerBreakout) :
    RunBody ⟨fun _ => some err, fun _ => none, none⟩ false ⟨sw, [⟨0, 0, 0⟩], none⟩
        (some [(SIGCHLD, false)]) [(0, [])]
      = ([Ev.dispatch 0 0 0], RunOut.raised err)
    ∧ RunBody ⟨fun _ => none, fun _ => none, some err⟩ false ⟨sw, [], none⟩
        (some [(SIGCHLD, false)]) [(0, [])]
      = ([Ev.reactorPass none], RunOut.raised err)
    ∧ RunBody ⟨fun _ => none, fun _ => some err, none⟩ false ⟨[o], [], none⟩
        (some [(SIGCHLD, true)]) [(0, [])]
      = ([Ev.reactorPass none, Ev.onSignal o SIGCHLD], RunOut.raised err) := by
  refine ⟨?_, ?_, ?_⟩
  · simp [RunBody, runLoop, runIter, runIterRest, schedPhase, setLatches,
      asyncoreSchedulerRun_cons ⟨fun _ => some err, fun _ => none, none⟩ 0 ⟨0, 0, 0⟩ [] rfl,
      hne]
  · simp [RunBody, runLoop, runIter, runIterRest, schedPhase, asyncoreLoopPass, setLatches]
  · simp [RunBody, runLoop, runIter, runIterRest, schedPhase, asyncoreLoopPass, setLatches,
      signalCheckpoint, callSignalWaiters]

theorem C8_exception_propagation_witness :
    RunBody ⟨fun _ => some (PyExc.userExc 9), fun _ => none, none⟩ false
        ⟨[], [⟨0, 0, 0⟩], none⟩ (some [(SIGCHLD, false)]) [(0, [])]
      = ([Ev.dispatch 0 0 0], RunOut.raised (PyExc.userExc 9))
    ∧ RunBody ⟨fun _ => none, fun _ => none, some (PyExc.userExc 9)⟩ false
        ⟨[], [], none⟩ (some [(SIGCHLD, false)]) [(0, [])]
      = ([Ev.reactorPass none], RunOut.raised (PyExc.userExc 9))
    ∧ RunBody ⟨fun _ => none, fun _ => some (PyExc.userExc 9), none⟩ false
        ⟨[3], [], none⟩ (some [(SIGCHLD, true)]) [(0, [])]
      = ([Ev.reactorPass none, Ev.onSignal 3 SIGCHLD],
         RunOut.raised (PyExc.userExc 9)) :=
  C8_exception_propagation (PyExc.userExc 9) [] 3 (by decide)

theorem AsyncoreDelayFunction_eq (env : Env) (t : Int) :
    AsyncoreDelayFunction env t
      = ([Ev.reactorPass (some t)], some (env.ioExc.getD PyExc.schedulerBreakout)) := by
  unfold AsyncoreDelayFunction asyncoreLoopPass
  cases env.ioExc <;> rfl

/-- One `scheduler.run()` call on a non-empty queue, for any reactor
behaviour: the head is either waited on (one bounded pass, queue unchanged)
or popped and dispatched (followed by a zero-timeout pass when its callback
returns); the call always ends in a raised exception. -/
theorem asyncoreSchedulerRun_cons_any (env : Env) (now : Int) (e : SchedEvent)
    (q : List SchedEvent) :
    asyncoreSchedulerRun env now (e :: q)
      = if now < e.time then
          ([Ev.reactorPass (some (e.time - now))], e :: q,
           some (env.ioExc.getD PyExc.schedulerBreakout))
        else
          match env.act e.action with
          | some err => ([Ev.dispatch e.time e.priority e.action], q, some err)
          | none => ([Ev.dispatch e.time e.priority e.action, Ev.reactorPass (some 0)],
                     q, some (env.ioExc.getD PyExc.schedulerBreakout)) := by
  unfold asyncoreSchedulerRun
  simp only [List.length_cons, schedulerRunLoop, AsyncoreDelayFunction_eq]

theorem foldl_enter_sorted (calls : List (Int × Int × Int × Nat)) :
    ∀ q, List.Sorted evKeyLE q →
      List.Sorted evKeyLE
        (calls.foldl (fun q c => enter c.1 c.2.1 c.2.2.1 c.2.2.2 q) q) := by
  induction calls with
  | nil => intro q h; simpa using h
  | cons c rest ih =>
    intro q h
    simp only [List.foldl_cons]
    exact ih _ (List.Sorted.orderedInsert _ _ h)

theorem buildQueue_sorted (calls : List (Int × Int × Int × Nat)) :
    List.Sorted evKeyLE (buildQueue calls) :=
  foldl_enter_sorted calls [] (by simp)

theorem dispatchKeys_append (a b : List Ev) :
    dispatchKeys (a ++ b) = dispatchKeys a ++ dispatchKeys b :=
  List.filterMap_append a b _

theorem dispatchKeys_callSignalWaiters (env : Env) (sw : List Nat) (s : Nat) :
    dispatchKeys (callSignalWaiters env sw s).1 = [] := by
  induction sw with
  | nil => rfl
  | cons o rest ih =>
    unfold callSignalWaiters
    cases env.obsAct o <;> simp [dispatchKeys] at ih ⊢ <;> exact ih

theorem dispatchKeys_checkpoint (env : Env) (sw : List Nat) :
    ∀ (hs : List (Nat × Bool)) (r : Bool),
      dispatchKeys (signalCheckpoint env sw r hs).trace = [] := by
  intro hs
  induction hs with
  | nil => intro r; rfl
  | cons p rest ih =>
    intro r
    rcases p with ⟨sig, called⟩
    cases called
    · simpa [signalCheckpoint] using ih r
    · simp only [signalCheckpoint]
      cases hc : (callSignalWaiters env sw sig).2
      · simpa [hc, dispatchKeys_append, dispatchKeys_callSignalWaiters] using
          ih (decide (sig ≠ SIGTERM))
      · simpa [hc] using dispatchKeys_callSignalWaiters env sw sig

theorem schedPhase_char (env : Env) (now : Int) (st : LoopSt)
    (hq : List.Sorted evKeyLE st.queue) :
    List.Sorted evKeyLE (schedPhase env now st).2.1
    ∧ ((dispatchKeys (schedPhase env now st).1 = []
          ∧ (schedPhase env now st).2.1 = st.queue)
       ∨ ∃ e, st.queue = e :: (schedPhase env now st).2.1
           ∧ dispatchKeys (schedPhase env now st).1 = [evKey e]) := by
  rcases hqe : st.queue with _ | ⟨e, t⟩
  · unfold schedPhase
    rw [hqe]
    exact ⟨by simp, Or.inl (by simp [asyncoreLoopPass, dispatchKeys])⟩
  · unfold schedPhase
    rw [hqe]
    simp only [List.isEmpty_cons, Bool.false_eq_true, if_false,
      asyncoreSchedulerRun_cons_any]
    rw [hqe] at hq
    have ht : List.Sorted evKeyLE t := (List.sorted_cons.mp hq).2
    split
    · exact ⟨hq, Or.inl ⟨by simp [dispatchKeys], rfl⟩⟩
    · cases env.act e.action
      · exact ⟨ht, Or.inr ⟨e, rfl, by simp [dispatchKeys, evKey]⟩⟩
      · exact ⟨ht, Or.inr ⟨e, rfl, by simp [dispatchKeys, evKey]⟩⟩

theorem runIterRest_char (env : Env) (sw : List Nat) (now : Int) (st : LoopSt)
    (hq : List.Sorted evKeyLE st.queue) :
    (dispatchKeys (runIterRest env sw now st).1 = []
       ∧ ∀ st2, (runIterRest env sw now st).2 = IterOut.next st2 →
           st2.queue = st.queue)
    ∨ (∃ e t, st.queue = e :: t
         ∧ dispatchKeys (runIterRest env sw now st).1 = [evKey e]
         ∧ ∀ st2, (runIterRest env sw now st).2 = IterOut.next st2 →
             st2.queue = t) := by
  have hchar := schedPhase_char env now st hq
  unfold runIterRest
  cases hs2 : (schedPhase env now st).2.2 with
  | some err =>
    simp only [hs2]
    rcases hchar.2 with ⟨hdk, _⟩ | ⟨e, hcons, hdk⟩
    · exact Or.inl ⟨hdk, by intro st2 h; cases h⟩
    · exact Or.inr ⟨e, _, hcons, hdk, by intro st2 h; cases h⟩
  | none =>
    simp only [hs2]
    cases hc : (signalCheckpoint env sw st.running st.handlers).exc with
    | some err =>
      simp only [hc]
      rcases hchar.2 with ⟨hdk, _⟩ | ⟨e, hcons, hdk⟩
      · exact Or.inl ⟨by simp [dispatchKeys_append, hdk, dispatchKeys_checkpoint],
          by intro st2 h; cases h⟩
      · exact Or.inr ⟨e, _, hcons,
          by simp [dispatchKeys_append, hdk, dispatchKeys_checkpoint],
          by intro st2 h; cases h⟩
    | none =>
      simp only [hc]
      rcases hchar.2 with ⟨hdk, hqeq⟩ | ⟨e, hcons, hdk⟩
      · refine Or.inl ⟨by simp [dispatchKeys_append, hdk, dispatchKeys_checkpoint], ?_⟩
        intro st2 h
        cases h
        exact hqeq
      · refine Or.inr ⟨e, _, hcons,
          by simp [dispatchKeys_append, hdk, dispatchKeys_checkpoint], ?_⟩
        intro st2 h
        cases h
        rfl

theorem runIter_char (env : Env) (sos : Bool) (sw : List Nat)
    (iow : Option (List Nat)) (now : Int) (st : LoopSt)
    (hq : List.Sorted evKeyLE st.queue) :
    (dispatchKeys (runIter env sos sw iow now st).1 = []
       ∧ ∀ st2, (runIter env sos sw iow now st).2 = IterOut.next st2 →
           st2.queue = st.queue)
    ∨ (∃ e t, st.queue = e :: t
         ∧ dispatchKeys (runIter env sos sw iow now st).1 = [evKey e]
         ∧ ∀ st2, (runIter env sos sw iow now st).2 = IterOut.next st2 →
             st2.queue = t) := by
  unfold runIter
  cases sos
  · simpa using runIterRest_char env sw now st hq
  · cases iow with
    | none => exact Or.inl ⟨rfl, by intro st2 h; cases h⟩
    | some l =>
      by_cases he : l.isEmpty
      · simp only [he, if_true]
        exact Or.inl ⟨rfl, by intro st2 h; cases h⟩
      · simpa [he] using runIterRest_char env sw now st hq

theorem runLoop_dispatch_sorted (env : Env) (sos : Bool) (sw : List Nat)
    (iow : Option (List Nat)) :
    ∀ (fuel : List (Int × List Nat)) (st : LoopSt),
      List.Sorted evKeyLE st.queue →
      List.Sorted keyLE (dispatchKeys (runLoop env sos sw iow fuel st).1)
      ∧ ∀ k ∈ dispatchKeys (runLoop env sos sw iow fuel st).1,
          ∃ e, e ∈ st.queue ∧ k = evKey e := by
  intro fuel
  induction fuel with
  | nil =>
    intro st hq
    constructor
    · cases hr : st.running <;> simp [runLoop, hr, dispatchKeys]
    · cases hr : st.running <;> simp [runLoop, hr, dispatchKeys]
  | cons a rest ih =>
    rcases a with ⟨now, ds⟩
    intro st hq
    cases hr : st.running
    · simp [runLoop, hr, dispatchKeys]
    · have hchar := runIter_char env sos sw iow now
        ⟨st.queue, setLatches ds st.handlers, true⟩ hq
      simp only [runLoop, hr, if_true]
      cases hout : (runIter env sos sw iow now
          ⟨st.queue, setLatches ds st.handlers, true⟩).2 with
      | brk =>
        simp only [hout] at hchar ⊢
        rcases hchar with ⟨hdk, _⟩ | ⟨e, t, hcons, hdk, _⟩
        · simp [hdk]
        · refine ⟨by simp [hdk], ?_⟩
          intro k hk
          rw [hdk] at hk
          simp at hk
          exact ⟨e, by rw [hcons]; exact List.mem_cons_self e t, hk⟩
      | raised err =>
        simp only [hout] at hchar ⊢
        rcases hchar with ⟨hdk, _⟩ | ⟨e, t, hcons, hdk, _⟩
        · simp [hdk]
        · refine ⟨by simp [hdk], ?_⟩
          intro k hk
          rw [hdk] at hk
          simp at hk
          exact ⟨e, by rw [hcons]; exact List.mem_cons_self e t, hk⟩
      | next st2 =>
        simp only [hout] at hchar ⊢
        rw [dispatchKeys_append]
        rcases hchar with ⟨hdk, hqeq⟩ | ⟨e, t, hcons, hdk, hqeq⟩
        · have hq2 : List.Sorted evKeyLE st2.queue := by
            rw [hqeq st2 rfl]; exact hq
          have hrec := ih st2 hq2
          refine ⟨by simpa [hdk] using hrec.1, ?_⟩
          intro k hk
          rw [hdk] at hk
          simp only [List.nil_append] at hk
          rcases hrec.2 k hk with ⟨e2, he2, hke⟩
          exact ⟨e2, by rwa [← hqeq st2 rfl], hke⟩
        · have hqt : st2.queue = t := hqeq st2 rfl
          rw [hcons] at hq
          have ht : List.Sorted evKeyLE t := (List.sorted_cons.mp hq).2
          have hq2 : List.Sorted evKeyLE st2.queue := by rw [hqt]; exact ht
          have hrec := ih st2 hq2
          rw [hdk]
          constructor
          · rw [List.singleton_append, List.sorted_cons]
            refine ⟨?_, hrec.1⟩
            intro k hk
            rcases hrec.2 k hk with ⟨e2, he2, hke⟩
            rw [hqt] at he2
            have := (List.sorted_cons.mp hq).1 e2 he2
            rw [hke]
            exact this
          · intro k hk
            rcases List.mem_append.mp hk with hk | hk
            · simp at hk
              exact ⟨e, by rw [hcons]; exact List.mem_cons_self e t, hk⟩
            · rcases hrec.2 k hk with ⟨e2, he2, hke⟩
              rw [hqt] at he2
              exact ⟨e2, by rw [hcons]; exact List.mem_cons_of_mem e he2, hke⟩

/-- Claim C6: for every sequence of `Enter` calls made before the loop
runs, the timer callbacks dispatched over the whole run of `Run`'s loop
fire in non-decreasing fire_time order, with equal fire times broken by
ascending priority value — the dispatch-key sequence of the whole trace is
sorted under `keyLE`. -/
theorem C6_dispatch_order (env : Env) (sos : Bool) (sw : List Nat)
    (iow : Option (List Nat)) (fuel : List (Int × List Nat))
    (sh : Option (List (Nat × Bool))) (calls : List (Int × Int × Int × Nat)) :
    List.Sorted keyLE (dispatchKeys
      (RunBody env sos ⟨sw, buildQueue calls, iow⟩ sh fuel).1) := by
  cases sh with
  | none => simp [RunBody, dispatchKeys]
  | some hs =>
    by_cases he : hs.isEmpty
    · simp [RunBody, he, dispatchKeys]
    · simp only [RunBody, he, Bool.false_eq_true, if_false]
      exact (runLoop_dispatch_sorted env sos sw iow fuel
        ⟨buildQueue calls, hs, true⟩ (buildQueue_sorted calls)).1

end Daemon
